/-
Verification of the csmith/middleware HTTP middleware library.

This file gives a shallow embedding of the library's response-decorator
protocol and its middlewares (compress.go, errorhandler.go, cachecontrol.go,
wrapper.go + textlog, realaddress.go, recover, headers, crossorigin) and
proves/refutes the frozen specification claims about them.

Conventions of the embedding:
  * Bytes are `Nat`; byte strings are `List Nat`.
  * The Go `http.Header` multimap is an association list `List (String × List String)`.
  * The raw underlying transport (Go's server-side `http.ResponseWriter`) is a
    `Transport`: commit is one-shot, the header snapshot taken at commit is what
    the client sees (`sentHeaders`), body writes after commit stream to the
    client, a write before commit triggers an implicit commit with status 200.
  * An inner handler's interaction with a response writer is a list of
    operations `HOp` (header mutation, WriteHeader, Write); each decorator is a
    state machine folded over that list, mirroring its Go methods.
  * Go standard-library helpers used by the code (strings.TrimSpace,
    strings.Cut, strconv.ParseFloat, net.ParseIP, http.Error, ...) are
    external to the repository and are modelled here with doc comments saying
    so; qualities are exact decimals rather than float64.
-/
import Mathlib

namespace Middleware

/-! ## Models of Go standard-library string helpers (external to the repo) -/

/-- Modelled from the Go standard library: `unicode.IsSpace` restricted to the
whitespace characters `strings.TrimSpace` strips (ASCII spacing plus U+0085,
U+00A0). -/
def isGoSpace (c : Char) : Bool :=
  c = ' ' || c = '\t' || c = '\n' || c = '\x0b' || c = '\x0c' || c = '\r' ||
    c = (Char.ofNat 133) || c = (Char.ofNat 160)

/-- Modelled from the Go standard library: `strings.TrimSpace`. -/
def goTrimSpace (s : String) : String :=
  String.mk (((s.toList.dropWhile isGoSpace).reverse.dropWhile isGoSpace).reverse)

/-- Modelled from the Go standard library: `strings.ToLower` (ASCII case fold;
the claims only exercise ASCII tokens). -/
def goToLower (s : String) : String :=
  String.mk (s.toList.map Char.toLower)

/-- Split a character list at every occurrence of `sep`; like Go
`strings.Split` with a one-character separator (so `[] → [[]]`). -/
def splitOnChar (sep : Char) : List Char → List (List Char)
  | [] => [[]]
  | c :: rest =>
    let r := splitOnChar sep rest
    if c = sep then [] :: r
    else
      match r with
      | [] => [[c]]
      | g :: gs => (c :: g) :: gs

/-- Modelled from the Go standard library: `strings.Split` with a
one-character separator (the only form the code uses). -/
def goSplit (s : String) (sep : Char) : List String :=
  (splitOnChar sep s.toList).map String.mk

/-- Modelled from the Go standard library: `strings.Cut s sep` with a
one-character separator — the part before the first occurrence of `sep` and
the part after it ("" if absent). -/
def goCut (s : String) (sep : Char) : String × String :=
  let pre := s.toList.takeWhile (fun c => ¬ c = sep)
  match s.toList.drop pre.length with
  | [] => (String.mk pre, "")
  | _ :: after => (String.mk pre, String.mk after)

/-- Modelled from the Go standard library: `strings.HasPrefix`. -/
def goStartsWith (s pre : String) : Bool :=
  pre.toList.isPrefixOf s.toList

/-- Drop the first `n` characters of a string (for `strings.TrimPrefix` with a
known-present literal). -/
def goDropChars (s : String) (n : Nat) : String :=
  String.mk (s.toList.drop n)

def digitsVal (l : List Char) : Nat :=
  l.foldl (fun a c => a * 10 + (c.toNat - 48)) 0

def isDigitChar (c : Char) : Bool :=
  48 ≤ c.toNat && c.toNat ≤ 57

def allDigits (l : List Char) : Bool :=
  l.all isDigitChar

/-- An exact decimal number `mant * 10 ^ exp`: the model of the float64
quality values (every value the code's parser can produce is such a
decimal, exactly). -/
structure Dec where
  mant : Int
  exp : Int
deriving Repr, DecidableEq

/-- The rational value an exact decimal denotes. -/
def Dec.toRat (d : Dec) : ℚ :=
  (d.mant : ℚ) * (10 : ℚ) ^ d.exp

/-- Whether the denoted value is strictly positive (the code's `> 0` test). -/
def Dec.isPos (d : Dec) : Bool :=
  0 < d.mant

instance : OfNat Dec 0 := ⟨⟨0, 0⟩⟩
instance : OfNat Dec 1 := ⟨⟨1, 0⟩⟩

/-- Modelled from the Go standard library: `strconv.ParseFloat` restricted to
finite decimal notation (optional sign, decimal mantissa, optional decimal
exponent), returning the exact decimal instead of the nearest float64.
`none` models a syntax error (Go then returns the value 0). -/
def parseFloatDec (s : String) : Option Dec :=
  let cs := s.toList
  let signAndRest : Int × List Char :=
    match cs with
    | '+' :: r => (1, r)
    | '-' :: r => (-1, r)
    | r => (1, r)
  let sign := signAndRest.1
  let body := signAndRest.2
  let mant := body.takeWhile (fun c => c ≠ 'e' && c ≠ 'E')
  let expPart := body.drop mant.length
  let intPart := mant.takeWhile isDigitChar
  let rest := mant.drop intPart.length
  let fracOk : Option (List Char) :=
    match rest with
    | [] => some []
    | '.' :: f => if allDigits f then some f else none
    | _ => none
  match fracOk with
  | none => none
  | some frac =>
    if intPart.length + frac.length = 0 then none
    else
      let m : Int := sign * (digitsVal (intPart ++ frac) : Int)
      match expPart with
      | [] => some ⟨m, -(frac.length : Int)⟩
      | _ :: e =>
        let eSignAndDigits : Int × List Char :=
          match e with
          | '+' :: d => (1, d)
          | '-' :: d => (-1, d)
          | d => (1, d)
        if eSignAndDigits.2.length = 0 || !allDigits eSignAndDigits.2 then none
        else
          some ⟨m, -(frac.length : Int) + eSignAndDigits.1 * (digitsVal eSignAndDigits.2 : Int)⟩

/-! ## The header multimap (model of Go's `http.Header`)

Keys are taken verbatim; the code under verification only ever uses
already-canonical header names, so MIME canonicalization is not modelled. -/

abbrev Headers := List (String × List String)

/-- `http.Header.Values`: every value stored under the key. -/
def hValues (h : Headers) (k : String) : List String :=
  ((h.find? (fun p => p.1 = k)).map Prod.snd).getD []

/-- `http.Header.Get`: the first value stored under the key, or "". -/
def hGet (h : Headers) (k : String) : String :=
  match hValues h k with
  | [] => ""
  | v :: _ => v

/-- `http.Header.Set`: replace all values of the key by the single value. -/
def hSet (h : Headers) (k v : String) : Headers :=
  if (h.find? (fun p => p.1 = k)).isSome then
    h.map (fun p => if p.1 = k then (k, [v]) else p)
  else h ++ [(k, [v])]

/-- `http.Header.Add`: append one value under the key. -/
def hAdd (h : Headers) (k v : String) : Headers :=
  if (h.find? (fun p => p.1 = k)).isSome then
    h.map (fun p => if p.1 = k then (p.1, p.2 ++ [v]) else p)
  else h ++ [(k, [v])]

/-- `http.Header.Del`: remove the key. -/
def hDel (h : Headers) (k : String) : Headers :=
  h.filter (fun p => ¬ p.1 = k)

/-! ## The raw transport (model of the server-side `http.ResponseWriter`)

`headers` is the mutable header map handed out by `Header()`; `sentHeaders`
and `status` are the snapshot fixed at the one-shot commit; `body` is the byte
stream already sent to the client. -/

structure Transport where
  committed : Bool
  status : Nat
  sentHeaders : Headers
  headers : Headers
  body : List Nat
deriving Repr, DecidableEq

def initTransport : Transport :=
  { committed := false, status := 0, sentHeaders := [], headers := [], body := [] }

/-- `WriteHeader` on the raw transport: one-shot commit; a second invocation is
ignored (Go logs "superfluous WriteHeader" and drops it). -/
def Transport.writeHeader (t : Transport) (code : Nat) : Transport :=
  if t.committed then t
  else { t with committed := true, status := code, sentHeaders := t.headers }

/-- `Write` on the raw transport: an implicit `WriteHeader 200` first if not
yet committed, then the bytes are streamed to the client. The underlying
write always succeeds, reporting the full count (as `httptest` and a healthy
connection do). -/
def Transport.write (t : Transport) (bs : List Nat) : Transport :=
  let t1 := t.writeHeader 200
  { t1 with body := t1.body ++ bs }

/-- One operation an inner handler may perform against a response writer. -/
inductive HOp where
  | setHeader (k v : String)
  | addHeader (k v : String)
  | delHeader (k : String)
  | writeHeader (code : Nat)
  | write (bs : List Nat)
deriving Repr, DecidableEq

def isHeaderOp : HOp → Bool
  | .setHeader _ _ => true
  | .addHeader _ _ => true
  | .delHeader _ => true
  | _ => false

def isWriteOp : HOp → Bool
  | .write _ => true
  | _ => false

/-- Apply a header-mutation to a header map (used by every wrapper, since each
wrapper's `Header()` is the shared underlying map). -/
def applyHeaderOp (h : Headers) : HOp → Headers
  | .setHeader k v => hSet h k v
  | .addHeader k v => hAdd h k v
  | .delHeader k => hDel h k
  | _ => h

/-- Run one handler operation directly against the raw transport. -/
def tStep (t : Transport) : HOp → Transport
  | .writeHeader code => t.writeHeader code
  | .write bs => t.write bs
  | op => { t with headers := applyHeaderOp t.headers op }

/-- Run a handler (a list of operations) directly against the raw transport. -/
def tRun (t : Transport) (ops : List HOp) : Transport :=
  ops.foldl tStep t

/-- Concatenation of all body bytes a handler writes. -/
def bodyWrites (ops : List HOp) : List Nat :=
  (ops.filterMap (fun op => match op with | .write bs => some bs | _ => none)).flatten

/-! ## `parseEncodings` (src/compress.go) -/

/-- Go map write `codings[coding] = value`: replace, else append. -/
def mapSet (m : List (String × Dec)) (k : String) (v : Dec) : List (String × Dec) :=
  if (m.find? (fun p => p.1 = k)).isSome then
    m.map (fun p => if p.1 = k then (k, v) else p)
  else m ++ [(k, v)]

/-- Go map read `m[k]` with the zero value 0 for a missing key. -/
def mapGet (m : List (String × Dec)) (k : String) : Dec :=
  ((m.find? (fun p => p.1 = k)).map Prod.snd).getD 0

/-- `parseEncodings` from src/compress.go: split every Accept-Encoding line on
commas, trim, cut an optional ";params" suffix, case-fold the token, and read
an optional `q=` parameter (absent → 1, unparsable → 0, Go's zero value). -/
def parseEncodings (encoding : List String) : List (String × Dec) :=
  encoding.foldl (fun codings line =>
    (goSplit line ',').foldl (fun codings part =>
      let cut := goCut (goTrimSpace part) ';'
      let coding := goToLower (goTrimSpace cut.1)
      let params := goTrimSpace cut.2
      let value : Dec :=
        if goStartsWith params "q=" then (parseFloatDec (goDropChars params 2)).getD 0
        else 1
      mapSet codings coding value) codings) []

/-! ## Requests -/

/-- The request fields the middlewares consume. -/
structure Req where
  method : String
  headers : Headers
  remoteAddr : String

/-! ## Compress middleware (src/compress.go) -/

/-- `compressConfig`: gzip level plus the optional compression predicate. -/
structure CompressCfg where
  gzipLevel : Int
  compressionCheck : Option (Req → Bool)

/-- The configuration `Compress()` builds with no options
(`gzip.DefaultCompression = -1`, no predicate). -/
def defaultCompressCfg : CompressCfg :=
  { gzipLevel := -1, compressionCheck := none }

/-- The guard `config.compressionCheck != nil && !config.compressionCheck(r)`
in `Compress`, as "the check passes". -/
def checkPasses (cfg : CompressCfg) (r : Req) : Bool :=
  match cfg.compressionCheck with
  | some f => f r
  | none => true

/-- Modelled from the Go standard library: `gzip.NewWriterLevel` succeeds
exactly for levels in `[HuffmanOnly = -2, BestCompression = 9]`. -/
def validGzipLevel (l : Int) : Bool :=
  (-2 ≤ l) && (l ≤ 9)

/-- The `gzipWrapper` state: `buf` is every byte handed to the gzip writer so
far (the writer itself is abstracted as a codec applied at close), `useGzip`
is `w != nil`, `headers` the wrapper's commit flag. -/
structure GzipSt where
  t : Transport
  buf : List Nat
  useGzip : Bool
  headers : Bool

/-- `gzipWrapper.WriteHeader`: add to Vary always; when compressing, set
Content-Encoding and drop Content-Length; then delegate the commit. -/
def GzipSt.writeHeader (s : GzipSt) (code : Nat) : GzipSt :=
  let t1 := { s.t with headers := hAdd s.t.headers "Vary" "Accept-Encoding" }
  let t2 :=
    if s.useGzip then
      { t1 with headers := hDel (hSet t1.headers "Content-Encoding" "gzip") "Content-Length" }
    else t1
  { s with headers := true, t := t2.writeHeader code }

/-- `gzipWrapper.Write`: implicit commit with 200 first, then route the bytes
to the gzip writer (when compressing) or to the raw transport. -/
def GzipSt.write (s : GzipSt) (bs : List Nat) : GzipSt :=
  let s1 := if s.headers then s else s.writeHeader 200
  if s1.useGzip then { s1 with buf := s1.buf ++ bs }
  else { s1 with t := s1.t.write bs }

def gStep (s : GzipSt) : HOp → GzipSt
  | .writeHeader code => s.writeHeader code
  | .write bs => s.write bs
  | op => { s with t := { s.t with headers := applyHeaderOp s.t.headers op } }

def gRun (s : GzipSt) (ops : List HOp) : GzipSt :=
  ops.foldl gStep s

/-- The deferred `writer.Close()`: all compressed output — the abstract codec
`C` applied to everything the handler wrote — reaches the raw transport. -/
def gzipClose (C : List Nat → List Nat) (s : GzipSt) : Transport :=
  s.t.write (C s.buf)

/-- The `Compress` middleware around one handler invocation. `C` is the
abstract gzip codec (modelled from the spec: the streaming compressor from
`compress/gzip`, external to the repository). -/
def runCompress (cfg : CompressCfg) (C : List Nat → List Nat) (r : Req)
    (ops : List HOp) (t : Transport) : Transport :=
  if !(checkPasses cfg r) then tRun t ops
  else
    let encs := parseEncodings (hValues r.headers "Accept-Encoding")
    if (mapGet encs "gzip").isPos || (mapGet encs "*").isPos then
      if validGzipLevel cfg.gzipLevel then
        gzipClose C (gRun { t := t, buf := [], useGzip := true, headers := false } ops)
      else tRun t ops
    else (gRun { t := t, buf := [], useGzip := false, headers := false } ops).t

/-! ## ErrorHandler middleware (src/errorhandler.go)

A registered substitute `http.Handler` is modelled by its effect: the list of
operations it performs against the response writer it is given. -/

structure ErrConf where
  handlers : List (Nat × List HOp)
  clearHeaders : Bool

/-- Go map read `e.conf.handlers[code]`. -/
def lookupHandler (conf : ErrConf) (code : Nat) : Option (List HOp) :=
  (conf.handlers.find? (fun p => p.1 = code)).map Prod.snd

/-- The `errorHandlingWrapper` state over the raw transport. -/
structure ErrSt where
  t : Transport
  drop : Bool
  headers : Bool

/-- `errorHandlingWrapper.WriteHeader`: a registered code switches to dropping
mode, optionally clears every header, and runs the substitute handler against
the raw underlying transport; an unregistered code is forwarded unchanged. -/
def eWriteHeader (conf : ErrConf) (s : ErrSt) (code : Nat) : ErrSt :=
  let s := { s with headers := true }
  match lookupHandler conf code with
  | some hops =>
    let t1 := if conf.clearHeaders then { s.t with headers := [] } else s.t
    { s with drop := true, t := tRun t1 hops }
  | none => { s with t := s.t.writeHeader code }

/-- `errorHandlingWrapper.Write`: implicit commit first; in dropping mode the
bytes are discarded but reported as written without error; otherwise they are
forwarded (the transport write reports the full count, no error). -/
def eWrite (conf : ErrConf) (s : ErrSt) (bs : List Nat) : ErrSt × Nat × Bool :=
  let s1 := if s.headers then s else eWriteHeader conf s 200
  if s1.drop then (s1, bs.length, false)
  else ({ s1 with t := s1.t.write bs }, bs.length, false)

def eStep (conf : ErrConf) (s : ErrSt) : HOp → ErrSt
  | .writeHeader code => eWriteHeader conf s code
  | .write bs => (eWrite conf s bs).1
  | op => { s with t := { s.t with headers := applyHeaderOp s.t.headers op } }

def eRun (conf : ErrConf) (s : ErrSt) (ops : List HOp) : ErrSt :=
  ops.foldl (eStep conf) s

/-- The `ErrorHandler` middleware around one handler invocation. -/
def runErrorHandler (conf : ErrConf) (ops : List HOp) (t : Transport) : Transport :=
  (eRun conf { t := t, drop := false, headers := false } ops).t

/-! ## CacheControl middleware (src/cachecontrol.go)

Durations are Go `time.Duration` values, i.e. nanosecond counts. -/

def nsPerSecond : Int := 1000000000

def hourNs : Int := 3600 * nsPerSecond

def yearNs : Int := 24 * 365 * hourNs

/-- `defaultCacheTimes` from src/cachecontrol.go. -/
def defaultCacheTimes : List (String × Int) :=
  [("application/*", yearNs),
   ("application/xml", hourNs),
   ("application/atom+xml", hourNs),
   ("application/json", hourNs),
   ("application/ld+json", hourNs),
   ("audio/*", yearNs),
   ("font/*", yearNs),
   ("image/*", yearNs),
   ("text/*", hourNs),
   ("video/*", yearNs)]

/-- Go map read `config.cacheTimes[k]` with its ok-flag. -/
def lookupTime (m : List (String × Int)) (k : String) : Option Int :=
  (m.find? (fun p => p.1 = k)).map Prod.snd

/-- `fmt.Sprintf("max-age=%d", int(t.Seconds()))`: the duration truncated to
whole seconds. -/
def maxAgeValue (d : Int) : String :=
  "max-age=" ++ toString (d / nsPerSecond)

/-- The `cacheControlWrapper` state over the raw transport. -/
structure CacheSt where
  t : Transport
  headers : Bool

/-- `cacheControlWrapper.WriteHeader`: an existing Cache-Control value wins;
otherwise look up the parameter-stripped Content-Type, then its main type
with `/*`; on a hit set `max-age=<seconds>`; always delegate the commit. -/
def cWriteHeader (conf : List (String × Int)) (s : CacheSt) (code : Nat) : CacheSt :=
  let s := { s with headers := true }
  if ¬ hGet s.t.headers "Cache-Control" = "" then
    { s with t := s.t.writeHeader code }
  else
    let contentType := (goCut (hGet s.t.headers "Content-Type") ';').1
    match lookupTime conf contentType with
    | some d =>
      let t1 := { s.t with headers := hSet s.t.headers "Cache-Control" (maxAgeValue d) }
      { s with t := t1.writeHeader code }
    | none =>
      let mainType := (goCut contentType '/').1
      match lookupTime conf (mainType ++ "/*") with
      | some d =>
        let t1 := { s.t with headers := hSet s.t.headers "Cache-Control" (maxAgeValue d) }
        { s with t := t1.writeHeader code }
      | none => { s with t := s.t.writeHeader code }

/-- `cacheControlWrapper.Write`: implicit commit first, then forward. -/
def cWrite (conf : List (String × Int)) (s : CacheSt) (bs : List Nat) : CacheSt :=
  let s1 := if s.headers then s else cWriteHeader conf s 200
  { s1 with t := s1.t.write bs }

def cStep (conf : List (String × Int)) (s : CacheSt) : HOp → CacheSt
  | .writeHeader code => cWriteHeader conf s code
  | .write bs => cWrite conf s bs
  | op => { s with t := { s.t with headers := applyHeaderOp s.t.headers op } }

def cRun (conf : List (String × Int)) (s : CacheSt) (ops : List HOp) : CacheSt :=
  ops.foldl (cStep conf) s

/-! ## Headers middleware (headers.go, the late header-injection decorator) -/

/-- The `headersWrapper` state; the configuration is the configured
key → values table. -/
structure HdrSt where
  t : Transport
  headers : Bool

/-- `headersWrapper.WriteHeader`: add every configured header, then delegate. -/
def hwWriteHeader (conf : Headers) (s : HdrSt) (code : Nat) : HdrSt :=
  let h := conf.foldl (fun acc p => p.2.foldl (fun acc v => hAdd acc p.1 v) acc) s.t.headers
  let t1 := { s.t with headers := h }
  { t := t1.writeHeader code, headers := true }

/-- `headersWrapper.Write`: implicit commit first, then forward. -/
def hwWrite (conf : Headers) (s : HdrSt) (bs : List Nat) : HdrSt :=
  let s1 := if s.headers then s else hwWriteHeader conf s 200
  { s1 with t := s1.t.write bs }

def hwStep (conf : Headers) (s : HdrSt) : HOp → HdrSt
  | .writeHeader code => hwWriteHeader conf s code
  | .write bs => hwWrite conf s bs
  | op => { s with t := { s.t with headers := applyHeaderOp s.t.headers op } }

/-! ## responseWriterWrapper (src/wrapper.go) and TextLog -/

/-- `responseWriterWrapper`: counts bytes written and remembers the last
explicitly-set status; `status` starts at the Go zero value 0. -/
structure RwwSt where
  t : Transport
  written : Nat
  status : Nat

def wwWriteHeader (s : RwwSt) (code : Nat) : RwwSt :=
  { s with status := code, t := s.t.writeHeader code }

/-- `responseWriterWrapper.Write`: forward to the wrapped writer (which
reports the full count) and accumulate the count. Note there is no implicit
`WriteHeader` at this layer. -/
def wwWrite (s : RwwSt) (bs : List Nat) : RwwSt :=
  { s with t := s.t.write bs, written := s.written + bs.length }

def wwStep (s : RwwSt) : HOp → RwwSt
  | .writeHeader code => wwWriteHeader s code
  | .write bs => wwWrite s bs
  | op => { s with t := { s.t with headers := applyHeaderOp s.t.headers op } }

def wwRun (s : RwwSt) (ops : List HOp) : RwwSt :=
  ops.foldl wwStep s

/-- The `TextLog` middleware around one handler invocation: the final
transport, plus the status and byte count it records and hands to the
formatter. -/
def runTextLog (ops : List HOp) (t : Transport) : Transport × Nat × Nat :=
  let s := wwRun { t := t, written := 0, status := 0 } ops
  (s.t, s.status, s.written)

/-! ## RealAddress middleware (src/realaddress.go) -/

/-- An IP address: a 32-bit or 128-bit number. -/
inductive IP where
  | v4 (n : Nat)
  | v6 (n : Nat)
deriving Repr, DecidableEq

/-- A CIDR range over v4 or v6 addresses. -/
structure Cidr where
  isV6 : Bool
  addr : Nat
  bits : Nat
deriving Repr, DecidableEq

/-- Modelled from the Go standard library: `net.IPNet.Contains` — a first-bits
match; an address and a network of different families never match. -/
def cidrContains (c : Cidr) (ip : IP) : Bool :=
  match ip with
  | .v4 n => !c.isV6 && (n / 2 ^ (32 - c.bits) == c.addr / 2 ^ (32 - c.bits))
  | .v6 n => c.isV6 && (n / 2 ^ (128 - c.bits) == c.addr / 2 ^ (128 - c.bits))

def trustedIn (tp : List Cidr) (ip : IP) : Bool :=
  tp.any (fun c => cidrContains c ip)

/-- One dotted-decimal octet: 1–3 digits, no leading zero, at most 255. -/
def parseDecOctet (s : String) : Option Nat :=
  let cs := s.toList
  if cs.length = 0 || 3 < cs.length || !allDigits cs then none
  else if 1 < cs.length && cs.head? = some '0' then none
  else if 255 < digitsVal cs then none
  else some (digitsVal cs)

/-- Modelled from the Go standard library: `net.ParseIP` restricted to IPv4
dotted-quad notation (the textual IPv6 forms are not modelled; every claim
exercises IPv4 inputs only). -/
def parseIP (s : String) : Option IP :=
  match goSplit s '.' with
  | [a, b, c, d] => do
    let x1 ← parseDecOctet a
    let x2 ← parseDecOctet b
    let x3 ← parseDecOctet c
    let x4 ← parseDecOctet d
    pure (IP.v4 (((x1 * 256 + x2) * 256 + x3) * 256 + x4))
  | _ => none

/-- Modelled from the Go standard library: `net.SplitHostPort` restricted to
the unbracketed `host:port` form (it errors — `none` — when there is no colon
or more than one). -/
def splitHostPort (s : String) : Option String :=
  if s.toList.count ':' = 1 && !(s.toList.contains '[') then
    some (String.mk (s.toList.takeWhile (fun c => ¬ c = ':')))
  else none

/-- `parseAddress` from src/realaddress.go: strip a port when present, then
parse the host as an IP. -/
def parseAddress (address : String) : Option IP :=
  match splitHostPort address with
  | some host => parseIP host
  | none => parseIP address

/-- `defaultTrustedProxies` from src/realaddress.go. -/
def defaultTrustedProxies : List Cidr :=
  [{ isV6 := false, addr := 10 * 16777216, bits := 8 },
   { isV6 := false, addr := 127 * 16777216, bits := 8 },
   { isV6 := false, addr := (172 * 256 + 16) * 65536, bits := 12 },
   { isV6 := false, addr := (192 * 256 + 168) * 65536, bits := 16 },
   { isV6 := true, addr := 1, bits := 128 },
   { isV6 := true, addr := 252 * 2 ^ 120, bits := 7 }]

/-- `collateForwardedHops` from src/realaddress.go: every X-Forwarded-For
value, comma-split and trimmed, followed by the transport peer address. -/
def collateForwardedHops (r : Req) : List String :=
  ((hValues r.headers "X-Forwarded-For").map
    (fun v => (goSplit v ',').map goTrimSpace)).flatten ++ [r.remoteAddr]

/-- The loop of `selectRealAddress`, processing hops from the end of the list
(closest to the server) towards the start; `prev` is `hops[i+1]`, the hop
examined in the previous iteration. `prev = none` on a parse failure models
the out-of-range `hops[i+1]` panic the source comments acknowledge (it can
only happen on the first iteration, on the peer address itself). -/
def selectAux (tp : List Cidr) : Option String → List String → Option String
  | prev, [] => prev
  | prev, h :: rest =>
    match parseAddress h with
    | none => prev
    | some ip => if trustedIn tp ip then selectAux tp (some h) rest else some h

/-- `selectRealAddress` from src/realaddress.go: scan from the hop closest to
the server; return the first untrusted hop, the previously-examined hop when
one fails to parse, and the hop closest to the client when all are trusted
(the final `prev` after the whole reversed list is consumed is `hops[0]`). -/
def selectRealAddress (hops : List String) (tp : List Cidr) : Option String :=
  selectAux tp none hops.reverse

/-! ## Recover middleware (recover.go) -/

def internalServerErrorBody : List Nat :=
  "Internal Server Error\n".toList.map Char.toNat

/-- Modelled from the Go standard library:
`http.Error(w, "Internal Server Error", 500)` — drop Content-Length, set the
plain-text content type and nosniff, commit 500, write the message line. -/
def httpError500 (t : Transport) : Transport :=
  let h := hSet (hSet (hDel t.headers "Content-Length")
      "Content-Type" "text/plain; charset=utf-8") "X-Content-Type-Options" "nosniff"
  let t1 := { t with headers := h }
  (t1.writeHeader 500).write internalServerErrorBody

/-- The `Recover` middleware around one handler invocation: `ops` are the
operations the downstream handler performed before returning or panicking,
`panics` whether it panicked there. The Bool result is whether the panic
logger was invoked. -/
def runRecover (ops : List HOp) (panics : Bool) (t : Transport) : Transport × Bool :=
  let t1 := tRun t ops
  if panics then (httpError500 t1, true) else (t1, false)

/-! ## CrossOriginProtection middleware (crossorigin.go) -/

/-- The `CrossOriginProtection` middleware around one handler invocation; the
Bool result is whether the inner handler was invoked. -/
def runCrossOriginProtection (r : Req) (ops : List HOp) (t : Transport) :
    Transport × Bool :=
  if r.method = "GET" || r.method = "HEAD" || r.method = "OPTIONS" then
    (tRun t ops, true)
  else
    let secFetchHeader := hGet r.headers "Sec-Fetch-Site"
    if ¬ secFetchHeader = "same-origin" ∧ ¬ secFetchHeader = "none" ∧
        ¬ secFetchHeader = "" then
      (t.writeHeader 403, false)
    else (tRun t ops, true)

/-! ## Auxiliary notions used by the statements -/

/-- A hop that parses and lies in a trusted range (the walk of
`selectRealAddress` continues exactly over such hops). -/
def goodHop (tp : List Cidr) (x : String) : Bool :=
  match parseAddress x with
  | some ip => trustedIn tp ip
  | none => false

/-- The `prev` accumulator of `selectAux` after consuming a list: the last
element consumed, or the initial value for an empty list. -/
def lastOr (prev : Option String) : List String → Option String
  | [] => prev
  | a :: l => lastOr (some a) l

/-! # Lemmas -/

theorem bodyWrites_nil : bodyWrites [] = [] := rfl

theorem bodyWrites_cons (op : HOp) (rest : List HOp) :
    bodyWrites (op :: rest) =
      (match op with | .write bs => bs | _ => []) ++ bodyWrites rest := by
  cases op <;> rfl

theorem tRun_nil (t : Transport) : tRun t [] = t := rfl

theorem tRun_cons (t : Transport) (op : HOp) (rest : List HOp) :
    tRun t (op :: rest) = tRun (tStep t op) rest := rfl

theorem tRun_append (t : Transport) (a b : List HOp) :
    tRun t (a ++ b) = tRun (tRun t a) b :=
  List.foldl_append tStep t a b

/-- Once the transport is committed, running any handler leaves the emitted
status and header snapshot alone and appends exactly the written bytes. -/
theorem tRun_committed (ops : List HOp) : ∀ t : Transport, t.committed = true →
    (tRun t ops).committed = true ∧ (tRun t ops).status = t.status ∧
    (tRun t ops).sentHeaders = t.sentHeaders ∧
    (tRun t ops).body = t.body ++ bodyWrites ops := by
  induction ops with
  | nil => intro t ht; exact ⟨ht, rfl, rfl, by simp [tRun, bodyWrites]⟩
  | cons op rest ih =>
    intro t ht
    rw [tRun_cons, bodyWrites_cons]
    cases op with
    | writeHeader c =>
      have hs : tStep t (.writeHeader c) = t := by
        simp [tStep, Transport.writeHeader, ht]
      rw [hs]
      simpa using ih t ht
    | write bs =>
      have hs : tStep t (.write bs) = { t with body := t.body ++ bs } := by
        simp [tStep, Transport.write, Transport.writeHeader, ht]
      rw [hs]
      have h2 := ih { t with body := t.body ++ bs } ht
      simpa [List.append_assoc] using h2
    | setHeader k v =>
      have h2 := ih { t with headers := applyHeaderOp t.headers (.setHeader k v) } ht
      simpa [tStep] using h2
    | addHeader k v =>
      have h2 := ih { t with headers := applyHeaderOp t.headers (.addHeader k v) } ht
      simpa [tStep] using h2
    | delHeader k =>
      have h2 := ih { t with headers := applyHeaderOp t.headers (.delHeader k) } ht
      simpa [tStep] using h2

/-- Header-only handler segments touch nothing but the mutable header map. -/
theorem tRun_headerOnly (ops : List HOp) : ∀ t : Transport,
    ops.all isHeaderOp = true →
    (tRun t ops).committed = t.committed ∧ (tRun t ops).status = t.status ∧
    (tRun t ops).sentHeaders = t.sentHeaders ∧ (tRun t ops).body = t.body := by
  induction ops with
  | nil => intro t _; exact ⟨rfl, rfl, rfl, rfl⟩
  | cons op rest ih =>
    intro t hall
    rw [List.all_cons, Bool.and_eq_true] at hall
    rw [tRun_cons]
    cases op with
    | setHeader k v => exact ih _ hall.2
    | addHeader k v => exact ih _ hall.2
    | delHeader k => exact ih _ hall.2
    | writeHeader c => simp [isHeaderOp] at hall
    | write bs => simp [isHeaderOp] at hall

/-! ### Header-map lemmas -/

theorem find?_map_keyed (h : Headers) (k : String) (f : String × List String → String × List String)
    (hkeys : ∀ p, (f p).1 = p.1) (hfix : ∀ p, ¬ p.1 = k → f p = p) (k' : String)
    (hne : ¬ k' = k) :
    (h.map f).find? (fun p => p.1 = k') = h.find? (fun p => p.1 = k') := by
  induction h with
  | nil => rfl
  | cons p t ih =>
    rw [List.map_cons]
    by_cases hp : p.1 = k'
    · have hfp : f p = p := hfix p (by rw [hp]; exact hne)
      rw [hfp, List.find?_cons_of_pos _ (by simp [hp]), List.find?_cons_of_pos _ (by simp [hp])]
    · have hfp : ¬ (f p).1 = k' := by rw [hkeys p]; exact hp
      rw [List.find?_cons_of_neg _ (by simp [hfp]), List.find?_cons_of_neg _ (by simp [hp]), ih]

theorem find?_hSet_map (h : Headers) (k v : String) :
    (h.map (fun p => if p.1 = k then (k, [v]) else p)).find? (fun p => p.1 = k) =
      (h.find? (fun p => p.1 = k)).map (fun _ => (k, [v])) := by
  induction h with
  | nil => rfl
  | cons p t ih =>
    rw [List.map_cons]
    by_cases hp : p.1 = k
    · rw [if_pos hp, List.find?_cons_of_pos _ (by simp), List.find?_cons_of_pos _ (by simp [hp])]
      rfl
    · rw [if_neg hp, List.find?_cons_of_neg _ (by simp [hp]), List.find?_cons_of_neg _ (by simp [hp]), ih]

theorem find?_hAdd_map (h : Headers) (k v : String) :
    (h.map (fun p => if p.1 = k then (p.1, p.2 ++ [v]) else p)).find? (fun p => p.1 = k) =
      (h.find? (fun p => p.1 = k)).map (fun q => (q.1, q.2 ++ [v])) := by
  induction h with
  | nil => rfl
  | cons p t ih =>
    rw [List.map_cons]
    by_cases hp : p.1 = k
    · rw [if_pos hp, List.find?_cons_of_pos _ (by simp [hp]), List.find?_cons_of_pos _ (by simp [hp])]
      rfl
    · rw [if_neg hp, List.find?_cons_of_neg _ (by simp [hp]), List.find?_cons_of_neg _ (by simp [hp]), ih]

theorem hValues_hSet_self (h : Headers) (k v : String) : hValues (hSet h k v) k = [v] := by
  unfold hSet
  cases hf : h.find? (fun p => p.1 = k) with
  | some q =>
    rw [if_pos (by simp)]
    unfold hValues
    rw [find?_hSet_map, hf]
    rfl
  | none =>
    rw [if_neg (by simp)]
    unfold hValues
    rw [List.find?_append, hf, Option.none_or, List.find?_cons_of_pos _ (by simp)]
    rfl

theorem hValues_hSet_ne (h : Headers) (k v k' : String) (hne : ¬ k' = k) :
    hValues (hSet h k v) k' = hValues h k' := by
  unfold hSet
  cases hf : h.find? (fun p => p.1 = k) with
  | some q =>
    rw [if_pos (by simp)]
    unfold hValues
    rw [find?_map_keyed h k _ (fun p => by by_cases hp : p.1 = k <;> simp [hp])
      (fun p hp => by simp [hp]) k' hne]
  | none =>
    rw [if_neg (by simp)]
    unfold hValues
    have hone : List.find? (fun p => p.1 = k') [(k, [v])] = none := by
      apply List.find?_eq_none.2
      intro a ha hpa
      rw [List.mem_singleton] at ha
      rw [ha] at hpa
      exact absurd (of_decide_eq_true hpa).symm hne
    rw [List.find?_append, hone]
    cases h.find? (fun p => p.1 = k') <;> rfl

theorem hValues_hAdd_self (h : Headers) (k v : String) :
    hValues (hAdd h k v) k = hValues h k ++ [v] := by
  unfold hAdd
  cases hf : h.find? (fun p => p.1 = k) with
  | some q =>
    rw [if_pos (by simp)]
    unfold hValues
    rw [find?_hAdd_map, hf]
    rfl
  | none =>
    rw [if_neg (by simp)]
    unfold hValues
    rw [List.find?_append, hf, Option.none_or, List.find?_cons_of_pos _ (by simp)]
    rfl

theorem hValues_hAdd_ne (h : Headers) (k v k' : String) (hne : ¬ k' = k) :
    hValues (hAdd h k v) k' = hValues h k' := by
  unfold hAdd
  cases hf : h.find? (fun p => p.1 = k) with
  | some q =>
    rw [if_pos (by simp)]
    unfold hValues
    rw [find?_map_keyed h k _ (fun p => by by_cases hp : p.1 = k <;> simp [hp])
      (fun p hp => by simp [hp]) k' hne]
  | none =>
    rw [if_neg (by simp)]
    unfold hValues
    have hone : List.find? (fun p => p.1 = k') [(k, [v])] = none := by
      apply List.find?_eq_none.2
      intro a ha hpa
      rw [List.mem_singleton] at ha
      rw [ha] at hpa
      exact absurd (of_decide_eq_true hpa).symm hne
    rw [List.find?_append, hone]
    cases h.find? (fun p => p.1 = k') <;> rfl

theorem find?_hDel_self (h : Headers) (k : String) :
    (hDel h k).find? (fun p => p.1 = k) = none := by
  unfold hDel
  apply List.find?_eq_none.2
  intro a ha hpa
  have := List.of_mem_filter ha
  rw [of_decide_eq_true hpa] at this
  simp at this

theorem hValues_hDel_self (h : Headers) (k : String) : hValues (hDel h k) k = [] := by
  unfold hValues
  rw [find?_hDel_self]
  rfl

theorem hValues_hDel_ne (h : Headers) (k k' : String) (hne : ¬ k' = k) :
    hValues (hDel h k) k' = hValues h k' := by
  unfold hDel hValues
  induction h with
  | nil => rfl
  | cons p t ih =>
    rw [List.filter_cons]
    by_cases hp : p.1 = k
    · have hp' : ¬ p.1 = k' := by rw [hp]; intro hc; exact hne hc.symm
      rw [if_neg (by simp [hp]), List.find?_cons_of_neg _ (by simp [hp']), ih]
    · by_cases hq : p.1 = k'
      · rw [if_pos (by simp [hp]), List.find?_cons_of_pos _ (by simp [hq]),
          List.find?_cons_of_pos _ (by simp [hq])]
      · rw [if_pos (by simp [hp]), List.find?_cons_of_neg _ (by simp [hq]),
          List.find?_cons_of_neg _ (by simp [hq]), ih]

theorem hGet_hSet_self (h : Headers) (k v : String) : hGet (hSet h k v) k = v := by
  rw [hGet, hValues_hSet_self]

theorem hGet_hDel_ne (h : Headers) (k k' : String) (hne : ¬ k' = k) :
    hGet (hDel h k) k' = hGet h k' := by
  rw [hGet, hValues_hDel_ne h k k' hne, hGet]

/-! ### Transport-step lemmas -/

theorem writeHeader_body (t : Transport) (c : Nat) : (t.writeHeader c).body = t.body := by
  unfold Transport.writeHeader
  split <;> rfl

theorem writeHeader_committed (t : Transport) (c : Nat) :
    (t.writeHeader c).committed = true := by
  unfold Transport.writeHeader
  split
  · assumption
  · rfl

theorem write_body (t : Transport) (bs : List Nat) : (t.write bs).body = t.body ++ bs := by
  simp [Transport.write, writeHeader_body]

theorem writeHeader_of_uncommitted (t : Transport) (c : Nat) (h : t.committed = false) :
    t.writeHeader c =
      { t with committed := true, status := c, sentHeaders := t.headers } := by
  unfold Transport.writeHeader
  rw [h]
  rfl

/-! ### Wrapper-run lemmas -/

theorem gRun_cons (s : GzipSt) (op : HOp) (rest : List HOp) :
    gRun s (op :: rest) = gRun (gStep s op) rest := rfl

theorem eRun_cons (conf : ErrConf) (s : ErrSt) (op : HOp) (rest : List HOp) :
    eRun conf s (op :: rest) = eRun conf (eStep conf s op) rest := rfl

theorem wwRun_cons (s : RwwSt) (op : HOp) (rest : List HOp) :
    wwRun s (op :: rest) = wwRun (wwStep s op) rest := rfl

/-- With compression active, a handler run leaves the transport body alone and
feeds exactly the written bytes, in order, to the compressor. -/
theorem gRun_useGzip (ops : List HOp) : ∀ s : GzipSt, s.useGzip = true →
    (gRun s ops).useGzip = true ∧ (gRun s ops).t.body = s.t.body ∧
    (gRun s ops).buf = s.buf ++ bodyWrites ops := by
  induction ops with
  | nil => intro s hu; exact ⟨hu, rfl, by simp [gRun, bodyWrites]⟩
  | cons op rest ih =>
    intro s hu
    rw [gRun_cons, bodyWrites_cons]
    cases op with
    | writeHeader c =>
      obtain ⟨h1, h2, h3⟩ := ih (gStep s (.writeHeader c))
        (by simp [gStep, GzipSt.writeHeader, hu])
      refine ⟨h1, ?_, ?_⟩
      · rw [h2]; simp [gStep, GzipSt.writeHeader, writeHeader_body, hu]
      · rw [h3]; simp [gStep, GzipSt.writeHeader]
    | write bs =>
      have hstep : gStep s (.write bs) =
          { s with buf := s.buf ++ bs,
                   headers := true,
                   t := if s.headers then s.t else (s.writeHeader 200).t } := by
        by_cases hh : s.headers
        · simp [gStep, GzipSt.write, hh, hu]
        · simp [gStep, GzipSt.write, GzipSt.writeHeader, hh, hu]
      obtain ⟨h1, h2, h3⟩ := ih (gStep s (.write bs)) (by rw [hstep]; exact hu)
      refine ⟨h1, ?_, ?_⟩
      · rw [h2, hstep]
        by_cases hh : s.headers <;>
          simp [hh, GzipSt.writeHeader, writeHeader_body, hu]
      · rw [h3, hstep]
        simp [List.append_assoc]
    | setHeader k v =>
      obtain ⟨h1, h2, h3⟩ := ih (gStep s (.setHeader k v)) (by simp [gStep, hu])
      exact ⟨h1, by rw [h2]; simp [gStep], by rw [h3]; simp [gStep]⟩
    | addHeader k v =>
      obtain ⟨h1, h2, h3⟩ := ih (gStep s (.addHeader k v)) (by simp [gStep, hu])
      exact ⟨h1, by rw [h2]; simp [gStep], by rw [h3]; simp [gStep]⟩
    | delHeader k =>
      obtain ⟨h1, h2, h3⟩ := ih (gStep s (.delHeader k)) (by simp [gStep, hu])
      exact ⟨h1, by rw [h2]; simp [gStep], by rw [h3]; simp [gStep]⟩

/-- The error-handling wrapper is transparent on header-only segments. -/
theorem eRun_headerOnly (ops : List HOp) : ∀ (conf : ErrConf) (s : ErrSt),
    ops.all isHeaderOp = true →
    eRun conf s ops = { s with t := tRun s.t ops } := by
  induction ops with
  | nil => intro conf s _; rfl
  | cons op rest ih =>
    intro conf s hall
    rw [List.all_cons, Bool.and_eq_true] at hall
    rw [eRun_cons]
    cases op with
    | setHeader k v => rw [ih conf _ hall.2]; rfl
    | addHeader k v => rw [ih conf _ hall.2]; rfl
    | delHeader k => rw [ih conf _ hall.2]; rfl
    | writeHeader c => simp [isHeaderOp] at hall
    | write bs => simp [isHeaderOp] at hall

/-- In the substituted (dropping) state, every subsequent write leaves the
wrapper state untouched. -/
theorem eRun_writes_drop (bss : List (List Nat)) : ∀ (conf : ErrConf) (s : ErrSt),
    s.drop = true → s.headers = true →
    eRun conf s (bss.map HOp.write) = s := by
  induction bss with
  | nil => intro conf s _ _; rfl
  | cons bs rest ih =>
    intro conf s hd hh
    rw [List.map_cons, eRun_cons]
    have hstep : eStep conf s (.write bs) = s := by
      simp [eStep, eWrite, hd, hh]
    rw [hstep]
    exact ih conf s hd hh

/-- In the passthrough state, writes are forwarded verbatim. -/
theorem eRun_writes_forward (bss : List (List Nat)) : ∀ (conf : ErrConf) (s : ErrSt),
    s.drop = false → s.headers = true →
    eRun conf s (bss.map HOp.write) = { s with t := tRun s.t (bss.map HOp.write) } := by
  induction bss with
  | nil => intro conf s _ _; rfl
  | cons bs rest ih =>
    intro conf s hd hh
    rw [List.map_cons, eRun_cons]
    have hstep : eStep conf s (.write bs) = { s with t := s.t.write bs } := by
      simp [eStep, eWrite, hd, hh]
    rw [hstep]
    have hrec := ih conf { s with t := s.t.write bs } hd hh
    rw [hrec]
    rfl

/-- The logging wrapper forwards every operation verbatim. -/
theorem wwRun_t (ops : List HOp) : ∀ s : RwwSt, (wwRun s ops).t = tRun s.t ops := by
  induction ops with
  | nil => intro s; rfl
  | cons op rest ih =>
    intro s
    rw [wwRun_cons, tRun_cons]
    cases op with
    | writeHeader c => rw [ih]; rfl
    | write bs => rw [ih]; rfl
    | setHeader k v => rw [ih]; rfl
    | addHeader k v => rw [ih]; rfl
    | delHeader k => rw [ih]; rfl

/-- The logging wrapper counts exactly the written bytes. -/
theorem wwRun_written (ops : List HOp) : ∀ s : RwwSt,
    (wwRun s ops).written = s.written + (bodyWrites ops).length := by
  induction ops with
  | nil => intro s; simp [wwRun, bodyWrites]
  | cons op rest ih =>
    intro s
    rw [wwRun_cons, bodyWrites_cons]
    cases op with
    | writeHeader c => rw [ih]; simp [wwStep, wwWriteHeader]
    | write bs =>
      rw [ih]
      simp [wwStep, wwWrite, Nat.add_assoc]
    | setHeader k v => rw [ih]; simp [wwStep]
    | addHeader k v => rw [ih]; simp [wwStep]
    | delHeader k => rw [ih]; simp [wwStep]

/-! ### Realaddress walk lemmas -/

theorem lastOr_concat (l : List String) : ∀ (prev : Option String) (a : String),
    lastOr prev (l ++ [a]) = some a := by
  induction l with
  | nil => intro prev a; rfl
  | cons b l' ih => intro prev a; exact ih (some b) a

theorem selectAux_append_trusted (tp : List Cidr) (l : List String) :
    ∀ (m : List String) (prev : Option String), (∀ x ∈ l, goodHop tp x = true) →
    selectAux tp prev (l ++ m) = selectAux tp (lastOr prev l) m := by
  induction l with
  | nil => intro m prev _; rfl
  | cons a l' ih =>
    intro m prev hall
    have ha : goodHop tp a = true := hall a (List.mem_cons_self a l')
    unfold goodHop at ha
    rw [List.cons_append]
    cases hpa : parseAddress a with
    | none => rw [hpa] at ha; simp at ha
    | some ip =>
      rw [hpa] at ha
      have ha' : trustedIn tp ip = true := by simpa using ha
      have hsel : selectAux tp prev (a :: (l' ++ m)) = selectAux tp (some a) (l' ++ m) := by
        simp [selectAux, hpa, ha']
      rw [hsel]
      exact ih m (some a) (fun x hx => hall x (List.mem_cons_of_mem a hx))

theorem eRun_append (conf : ErrConf) (s : ErrSt) (a b : List HOp) :
    eRun conf s (a ++ b) = eRun conf (eRun conf s a) b :=
  List.foldl_append (eStep conf) s a b

/-! # Claim theorems -/

/-- **C1**: for every request whose parsed Accept-Encoding gives a positive
quality weight to "gzip" (or "*"), gzip-decompressing the body produced by the
compression decorator yields exactly the byte sequence the inner handler
wrote, for every sequence of handler operations. The gzip codec is abstract:
any compressor `C` with a decompression inverse `D`; the configured predicate
passes and the gzip level is valid (otherwise the code deliberately serves an
uncompressed passthrough). -/
theorem C1_compress_roundtrip
    (C D : List Nat → List Nat) (hCD : ∀ bs, D (C bs) = bs)
    (cfg : CompressCfg) (r : Req) (ops : List HOp) (t : Transport)
    (hchk : checkPasses cfg r = true)
    (hsel :
      (mapGet (parseEncodings (hValues r.headers "Accept-Encoding")) "gzip").isPos = true ∨
      (mapGet (parseEncodings (hValues r.headers "Accept-Encoding")) "*").isPos = true)
    (hlvl : validGzipLevel cfg.gzipLevel = true)
    (hbody : t.body = []) :
    D (runCompress cfg C r ops t).body = bodyWrites ops := by
  have hsel' :
      ((mapGet (parseEncodings (hValues r.headers "Accept-Encoding")) "gzip").isPos ||
        (mapGet (parseEncodings (hValues r.headers "Accept-Encoding")) "*").isPos) = true := by
    rcases hsel with h | h <;> simp [h]
  obtain ⟨hu, hb, hbuf⟩ :=
    gRun_useGzip ops { t := t, buf := [], useGzip := true, headers := false } rfl
  have hrun : runCompress cfg C r ops t =
      gzipClose C (gRun { t := t, buf := [], useGzip := true, headers := false } ops) := by
    simp [runCompress, hchk, hsel', hlvl]
  rw [hrun,
    show gzipClose C (gRun { t := t, buf := [], useGzip := true, headers := false } ops) =
      (gRun { t := t, buf := [], useGzip := true, headers := false } ops).t.write
        (C (gRun { t := t, buf := [], useGzip := true, headers := false } ops).buf) from rfl,
    write_body, hb, hbuf, hbody]
  simp [hCD]

/-- Witness for C1: the identity codec, a request accepting gzip, and two
handler writes. -/
theorem C1_compress_roundtrip_witness :
    checkPasses defaultCompressCfg
      { method := "GET", headers := [("Accept-Encoding", ["gzip"])], remoteAddr := "" } = true ∧
    (fun bs : List Nat => bs)
      ((runCompress defaultCompressCfg (fun bs => bs)
        { method := "GET", headers := [("Accept-Encoding", ["gzip"])], remoteAddr := "" }
        [HOp.write [1, 2], HOp.write [3]] initTransport).body) =
      bodyWrites [HOp.write [1, 2], HOp.write [3]] :=
  ⟨rfl,
   C1_compress_roundtrip (fun bs => bs) (fun bs => bs) (fun _ => rfl)
     defaultCompressCfg
     { method := "GET", headers := [("Accept-Encoding", ["gzip"])], remoteAddr := "" }
     [HOp.write [1, 2], HOp.write [3]] initTransport
     rfl (Or.inl (by decide)) (by decide) rfl⟩

/-- **C2**: the error-substitution decorator with clearHeadersOnError true
(its default). On the first WriteHeader with a registered code it clears every
header, runs the substitute handler against the raw underlying stream, and
enters the dropping state; writes while substituted report full success but
are discarded; an unregistered code and the following body are forwarded
unchanged. -/
theorem C2_error_substitution (conf : ErrConf) (hclear : conf.clearHeaders = true)
    (pre : List HOp) (hpre : pre.all isHeaderOp = true) (code : Nat) (t : Transport) :
    (∀ hops, lookupHandler conf code = some hops →
      eRun conf { t := t, drop := false, headers := false } (pre ++ [HOp.writeHeader code]) =
        { t := tRun { (tRun t pre) with headers := ([] : Headers) } hops,
          drop := true, headers := true }) ∧
    (∀ (s : ErrSt) (bs : List Nat), s.drop = true → s.headers = true →
      eWrite conf s bs = (s, bs.length, false)) ∧
    (∀ hops (bss : List (List Nat)), lookupHandler conf code = some hops →
      eRun conf { t := t, drop := false, headers := false }
          (pre ++ HOp.writeHeader code :: bss.map HOp.write) =
        { t := tRun { (tRun t pre) with headers := ([] : Headers) } hops,
          drop := true, headers := true }) ∧
    (lookupHandler conf code = none → ∀ bss : List (List Nat),
      eRun conf { t := t, drop := false, headers := false }
          (pre ++ HOp.writeHeader code :: bss.map HOp.write) =
        { t := tRun t (pre ++ HOp.writeHeader code :: bss.map HOp.write),
          drop := false, headers := true }) := by
  have hpre' : eRun conf { t := t, drop := false, headers := false } pre =
      { t := tRun t pre, drop := false, headers := false } :=
    eRun_headerOnly pre conf _ hpre
  have hsub : ∀ hops, lookupHandler conf code = some hops →
      eWriteHeader conf { t := tRun t pre, drop := false, headers := false } code =
        { t := tRun { (tRun t pre) with headers := ([] : Headers) } hops,
          drop := true, headers := true } := by
    intro hops hreg
    simp [eWriteHeader, hreg, hclear]
  refine ⟨?_, ?_, ?_, ?_⟩
  · intro hops hreg
    rw [eRun_append, hpre']
    rw [show eRun conf { t := tRun t pre, drop := false, headers := false }
        [HOp.writeHeader code] =
      eWriteHeader conf { t := tRun t pre, drop := false, headers := false } code from rfl]
    exact hsub hops hreg
  · intro s bs hd hh
    simp [eWrite, hd, hh]
  · intro hops bss hreg
    rw [List.append_cons, eRun_append, eRun_append, hpre']
    rw [show eRun conf { t := tRun t pre, drop := false, headers := false }
        [HOp.writeHeader code] =
      eWriteHeader conf { t := tRun t pre, drop := false, headers := false } code from rfl]
    rw [hsub hops hreg]
    exact eRun_writes_drop bss conf _ rfl rfl
  · intro hreg bss
    rw [List.append_cons, eRun_append, eRun_append, hpre']
    have hw : eRun conf { t := tRun t pre, drop := false, headers := false }
        [HOp.writeHeader code] =
        { t := (tRun t pre).writeHeader code, drop := false, headers := true } := by
      show eWriteHeader conf { t := tRun t pre, drop := false, headers := false } code = _
      simp [eWriteHeader, hreg]
    rw [hw, eRun_writes_forward bss conf _ rfl rfl]
    have hsplit : tRun t (pre ++ [HOp.writeHeader code] ++ bss.map HOp.write) =
        tRun ((tRun t pre).writeHeader code) (bss.map HOp.write) := by
      rw [tRun_append, tRun_append]
      rfl
    rw [hsplit]

/-- Witness for C2: a registered 404 substitute (and an unregistered 400) with
one prior header and one discarded write. -/
theorem C2_error_substitution_witness :
    (eRun { handlers := [(404, [HOp.write [99]])], clearHeaders := true }
        { t := initTransport, drop := false, headers := false }
        ([HOp.setHeader "X-Original-Header" "original-value"] ++
          HOp.writeHeader 404 :: ([[2, 3]] : List (List Nat)).map HOp.write) =
      { t := tRun { (tRun initTransport [HOp.setHeader "X-Original-Header" "original-value"]) with
            headers := ([] : Headers) } [HOp.write [99]],
        drop := true, headers := true }) ∧
    (eRun { handlers := [(404, [HOp.write [99]])], clearHeaders := true }
        { t := initTransport, drop := false, headers := false }
        ([HOp.setHeader "X-Original-Header" "original-value"] ++
          HOp.writeHeader 400 :: ([[2, 3]] : List (List Nat)).map HOp.write) =
      { t := tRun initTransport
          ([HOp.setHeader "X-Original-Header" "original-value"] ++
            HOp.writeHeader 400 :: ([[2, 3]] : List (List Nat)).map HOp.write),
        drop := false, headers := true }) :=
  ⟨(C2_error_substitution { handlers := [(404, [HOp.write [99]])], clearHeaders := true } rfl
      [HOp.setHeader "X-Original-Header" "original-value"] (by decide) 404
      initTransport).2.2.1 [HOp.write [99]] [[2, 3]] (by decide),
   (C2_error_substitution { handlers := [(404, [HOp.write [99]])], clearHeaders := true } rfl
      [HOp.setHeader "X-Original-Header" "original-value"] (by decide) 400
      initTransport).2.2.2 (by decide) [[2, 3]]⟩

/-- **C3** (counterexample): in the error-substitution decorator, a second
WriteHeader with a code that has a registered body-writing substitute runs the
substitute again and appends its body a second time — the emitted body
changes, so the second commit is not idempotent for every decorator. -/
theorem C3_counterexample :
    (runErrorHandler { handlers := [(404, [HOp.write [99]])], clearHeaders := true }
      [HOp.writeHeader 404] initTransport).body = [99] ∧
    (runErrorHandler { handlers := [(404, [HOp.write [99]])], clearHeaders := true }
      [HOp.writeHeader 404, HOp.writeHeader 404] initTransport).body = [99, 99] ∧
    ¬ ((runErrorHandler { handlers := [(404, [HOp.write [99]])], clearHeaders := true }
        [HOp.writeHeader 404, HOp.writeHeader 404] initTransport).body =
      (runErrorHandler { handlers := [(404, [HOp.write [99]])], clearHeaders := true }
        [HOp.writeHeader 404] initTransport).body) := by
  refine ⟨by decide, by decide, by decide⟩

/-- **C3** (amended): a second WriteHeader after a commit never changes the
emitted status or header snapshot, for every decorator; it also leaves the
emitted body unchanged for the compression, cache-policy, header-injection
and logging decorators, and for the error-substitution decorator whenever the
repeated code has no registered handler — a registered substitute's body
writes, however, are appended again. -/
theorem C3_commit_idempotent_amended :
    (∀ (s : GzipSt) (c : Nat), s.t.committed = true →
      (s.writeHeader c).t.status = s.t.status ∧
      (s.writeHeader c).t.sentHeaders = s.t.sentHeaders ∧
      (s.writeHeader c).t.body = s.t.body) ∧
    (∀ (conf : List (String × Int)) (s : CacheSt) (c : Nat), s.t.committed = true →
      (cWriteHeader conf s c).t.status = s.t.status ∧
      (cWriteHeader conf s c).t.sentHeaders = s.t.sentHeaders ∧
      (cWriteHeader conf s c).t.body = s.t.body) ∧
    (∀ (conf : Headers) (s : HdrSt) (c : Nat), s.t.committed = true →
      (hwWriteHeader conf s c).t.status = s.t.status ∧
      (hwWriteHeader conf s c).t.sentHeaders = s.t.sentHeaders ∧
      (hwWriteHeader conf s c).t.body = s.t.body) ∧
    (∀ (s : RwwSt) (c : Nat), s.t.committed = true →
      (wwWriteHeader s c).t.status = s.t.status ∧
      (wwWriteHeader s c).t.sentHeaders = s.t.sentHeaders ∧
      (wwWriteHeader s c).t.body = s.t.body) ∧
    (∀ (conf : ErrConf) (s : ErrSt) (c : Nat), s.t.committed = true →
      (eWriteHeader conf s c).t.status = s.t.status ∧
      (eWriteHeader conf s c).t.sentHeaders = s.t.sentHeaders ∧
      (lookupHandler conf c = none → (eWriteHeader conf s c).t.body = s.t.body) ∧
      (∀ hops, lookupHandler conf c = some hops →
        (eWriteHeader conf s c).t.body = s.t.body ++ bodyWrites hops)) := by
  refine ⟨?_, ?_, ?_, ?_, ?_⟩
  · intro s c hcom
    by_cases hg : s.useGzip = true <;>
      simp [GzipSt.writeHeader, Transport.writeHeader, hcom, hg]
  · intro conf s c hcom
    unfold cWriteHeader
    by_cases hcc : hGet s.t.headers "Cache-Control" = ""
    · simp only [hcc, not_true_eq_false, if_false]
      cases h1 : lookupTime conf (goCut (hGet s.t.headers "Content-Type") ';').1 with
      | some d => simp [h1, Transport.writeHeader, hcom]
      | none =>
        cases h2 : lookupTime conf
            ((goCut (goCut (hGet s.t.headers "Content-Type") ';').1 '/').1 ++ "/*") with
        | some d => simp [h1, h2, Transport.writeHeader, hcom]
        | none => simp [h1, h2, Transport.writeHeader, hcom]
    · simp [hcc, Transport.writeHeader, hcom]
  · intro conf s c hcom
    simp [hwWriteHeader, Transport.writeHeader, hcom]
  · intro s c hcom
    simp [wwWriteHeader, Transport.writeHeader, hcom]
  · intro conf s c hcom
    cases hreg : lookupHandler conf c with
    | none =>
      refine ⟨?_, ?_, fun _ => ?_, fun hops h => absurd h (by simp)⟩ <;>
        simp [eWriteHeader, hreg, Transport.writeHeader, hcom]
    | some hops =>
      have ht1 : (if conf.clearHeaders then
          { s.t with headers := ([] : Headers) } else s.t).committed = true := by
        by_cases hc : conf.clearHeaders <;> simp [hc, hcom]
      obtain ⟨q1, q2, q3, q4⟩ := tRun_committed hops _ ht1
      have heq : (eWriteHeader conf s c).t =
          tRun (if conf.clearHeaders then
            { s.t with headers := ([] : Headers) } else s.t) hops := by
        unfold eWriteHeader
        rw [hreg]
      refine ⟨?_, ?_, fun h => absurd h (by simp), fun hops' h => ?_⟩
      · rw [heq, q2]
        by_cases hc : conf.clearHeaders <;> simp [hc]
      · rw [heq, q3]
        by_cases hc : conf.clearHeaders <;> simp [hc]
      · have : hops' = hops := (Option.some_inj.1 h).symm
        rw [this, heq, q4]
        by_cases hc : conf.clearHeaders <;> simp [hc]

/-- Witness for C3 (amended) at concrete committed states. -/
theorem C3_commit_idempotent_amended_witness :
    ((GzipSt.mk (Transport.mk true 201 [("A", ["1"])] [("A", ["1"])] [7])
        [] true true).writeHeader 404).t.status = 201 ∧
    (eWriteHeader (ErrConf.mk [(404, [HOp.write [99]])] true)
        (ErrSt.mk (Transport.mk true 201 [("A", ["1"])] [("A", ["1"])] [7]) false true)
        404).t.body = [7] ++ bodyWrites [HOp.write [99]] :=
  ⟨(C3_commit_idempotent_amended.1
      (GzipSt.mk (Transport.mk true 201 [("A", ["1"])] [("A", ["1"])] [7]) [] true true)
      404 rfl).1,
   (C3_commit_idempotent_amended.2.2.2.2
      (ErrConf.mk [(404, [HOp.write [99]])] true)
      (ErrSt.mk (Transport.mk true 201 [("A", ["1"])] [("A", ["1"])] [7]) false true)
      404 rfl).2.2.2 [HOp.write [99]] (by decide)⟩

/-- **C4**: the metrics/logging decorator forwards every operation verbatim
and records the total byte count; but at the failing input — a handler that
only writes and never calls WriteHeader — it records status 0 while the
transport actually emits 200, contradicting the claimed default of 200. -/
theorem C4_textlog_eval :
    (∀ (ops : List HOp) (t : Transport), (runTextLog ops t).1 = tRun t ops) ∧
    (∀ (ops : List HOp) (t : Transport),
      (runTextLog ops t).2.2 = (bodyWrites ops).length) ∧
    (runTextLog [HOp.write [1, 2, 3]] initTransport).2.1 = 0 ∧
    (runTextLog [HOp.write [1, 2, 3]] initTransport).1.status = 200 ∧
    (runTextLog [HOp.write [1, 2, 3]] initTransport).1.body = [1, 2, 3] ∧
    ¬ (runTextLog [HOp.write [1, 2, 3]] initTransport).2.1 = 200 := by
  refine ⟨?_, ?_, by decide, by decide, by decide, by decide⟩
  · intro ops t
    exact wwRun_t ops { t := t, written := 0, status := 0 }
  · intro ops t
    simpa using wwRun_written ops { t := t, written := 0, status := 0 }

/-- **C5** (counterexample): when the compression predicate returns false,
`Compress` serves the request on the raw writer — committing leaves no Vary
header at all, refuting "Accept-Encoding is added to the Vary header on every
response, including when bypassed by the compression predicate". -/
theorem C5_counterexample :
    (runCompress (CompressCfg.mk (-1) (some (fun _ => false))) (fun bs => bs)
        (Req.mk "GET" [("Accept-Encoding", ["gzip"])] "")
        [HOp.writeHeader 200] initTransport).committed = true ∧
    hValues (runCompress (CompressCfg.mk (-1) (some (fun _ => false))) (fun bs => bs)
        (Req.mk "GET" [("Accept-Encoding", ["gzip"])] "")
        [HOp.writeHeader 200] initTransport).sentHeaders "Vary" = [] := by
  refine ⟨by decide, by decide⟩

/-- **C5** (amended): at commit time the gzip wrapper sets
Content-Encoding: gzip, removes Content-Length and adds Accept-Encoding to
Vary when compression is active, and still adds the Vary value when the
client declined gzip; but when the compression predicate bypasses, or the
configured gzip level is invalid, the request is served on the raw writer
with no header rewriting at all. -/
theorem C5_compress_headers_amended :
    (∀ (s : GzipSt) (c : Nat), s.useGzip = true → s.t.committed = false →
      hGet (s.writeHeader c).t.sentHeaders "Content-Encoding" = "gzip" ∧
      hValues (s.writeHeader c).t.sentHeaders "Content-Length" = [] ∧
      "Accept-Encoding" ∈ hValues (s.writeHeader c).t.sentHeaders "Vary" ∧
      (s.writeHeader c).t.status = c ∧ (s.writeHeader c).t.committed = true) ∧
    (∀ (s : GzipSt) (c : Nat), s.useGzip = false → s.t.committed = false →
      "Accept-Encoding" ∈ hValues (s.writeHeader c).t.sentHeaders "Vary" ∧
      (s.writeHeader c).t.status = c) ∧
    (∀ (cfg : CompressCfg) (C : List Nat → List Nat) (r : Req) (ops : List HOp)
        (t : Transport), checkPasses cfg r = false →
      runCompress cfg C r ops t = tRun t ops) ∧
    (∀ (cfg : CompressCfg) (C : List Nat → List Nat) (r : Req) (ops : List HOp)
        (t : Transport), checkPasses cfg r = true →
      ((mapGet (parseEncodings (hValues r.headers "Accept-Encoding")) "gzip").isPos ||
        (mapGet (parseEncodings (hValues r.headers "Accept-Encoding")) "*").isPos) = true →
      validGzipLevel cfg.gzipLevel = false →
      runCompress cfg C r ops t = tRun t ops) := by
  refine ⟨?_, ?_, ?_, ?_⟩
  · intro s c hu hcom
    have hparts : (s.writeHeader c).t.sentHeaders =
        hDel (hSet (hAdd s.t.headers "Vary" "Accept-Encoding") "Content-Encoding" "gzip")
          "Content-Length" ∧
        (s.writeHeader c).t.status = c ∧ (s.writeHeader c).t.committed = true := by
      simp [GzipSt.writeHeader, hu, Transport.writeHeader, hcom]
    obtain ⟨h1, h2, h3⟩ := hparts
    refine ⟨?_, ?_, ?_, h2, h3⟩
    · rw [h1, hGet_hDel_ne _ _ _ (by decide), hGet_hSet_self]
    · rw [h1, hValues_hDel_self]
    · rw [h1, hValues_hDel_ne _ _ _ (by decide), hValues_hSet_ne _ _ _ _ (by decide),
        hValues_hAdd_self]
      exact List.mem_append_right _ (List.mem_singleton_self _)
  · intro s c hu hcom
    have hparts : (s.writeHeader c).t.sentHeaders =
        hAdd s.t.headers "Vary" "Accept-Encoding" ∧ (s.writeHeader c).t.status = c := by
      simp [GzipSt.writeHeader, hu, Transport.writeHeader, hcom]
    obtain ⟨h1, h2⟩ := hparts
    refine ⟨?_, h2⟩
    rw [h1, hValues_hAdd_self]
    exact List.mem_append_right _ (List.mem_singleton_self _)
  · intro cfg C r ops t h
    simp [runCompress, h]
  · intro cfg C r ops t h1 h2 h3
    simp [runCompress, h1, h2, h3]

/-- Witness for C5 (amended) at concrete wrapper states and configurations. -/
theorem C5_compress_headers_amended_witness :
    hGet ((GzipSt.mk (Transport.mk false 0 [] [("Content-Length", ["5"])] [])
        [] true false).writeHeader 200).t.sentHeaders "Content-Encoding" = "gzip" ∧
    "Accept-Encoding" ∈ hValues ((GzipSt.mk (Transport.mk false 0 [] [] [])
        [] false false).writeHeader 200).t.sentHeaders "Vary" ∧
    runCompress (CompressCfg.mk (-1) (some (fun _ => false))) (fun bs => bs)
        (Req.mk "GET" [] "") [HOp.write [1]] initTransport =
      tRun initTransport [HOp.write [1]] ∧
    runCompress (CompressCfg.mk 99 none) (fun bs => bs)
        (Req.mk "GET" [("Accept-Encoding", ["gzip"])] "") [HOp.write [1]] initTransport =
      tRun initTransport [HOp.write [1]] :=
  ⟨(C5_compress_headers_amended.1
      (GzipSt.mk (Transport.mk false 0 [] [("Content-Length", ["5"])] []) [] true false)
      200 rfl rfl).1,
   (C5_compress_headers_amended.2.1
      (GzipSt.mk (Transport.mk false 0 [] [] []) [] false false) 200 rfl rfl).1,
   C5_compress_headers_amended.2.2.1 (CompressCfg.mk (-1) (some (fun _ => false)))
     (fun bs => bs) (Req.mk "GET" [] "") [HOp.write [1]] initTransport rfl,
   C5_compress_headers_amended.2.2.2 (CompressCfg.mk 99 none)
     (fun bs => bs) (Req.mk "GET" [("Accept-Encoding", ["gzip"])] "")
     [HOp.write [1]] initTransport rfl (by decide) (by decide)⟩

/-- **C6** (counterexample): the parser does not clamp qualities to [0,1] —
the header value "gzip;q=5" yields the weight 5, outside [0,1]. -/
theorem C6_counterexample :
    mapGet (parseEncodings ["gzip;q=5"]) "gzip" = Dec.mk 5 0 ∧
    (Dec.mk 5 0).toRat = 5 ∧ ¬ ((Dec.mk 5 0).toRat ≤ 1) := by
  refine ⟨by decide, ?_, ?_⟩
  · simp [Dec.toRat]
  · simp [Dec.toRat]

/-- **C6** (amended): parsing maps case-folded, comma-split,
whitespace-trimmed encoding tokens to quality weights (not clamped to
[0,1]); an absent `;q=` parameter defaults to 1.0, a malformed quality
parses as 0.0; in particular the three specified examples hold (weights are
exact decimals: `Dec.mk m e` denotes `m·10^e`). -/
theorem C6_parse_encodings_amended :
    parseEncodings ["gzip;q=0.8, deflate;q=0.9"] =
      [("gzip", Dec.mk 8 (-1)), ("deflate", Dec.mk 9 (-1))] ∧
    (Dec.mk 8 (-1)).toRat = 8 / 10 ∧ (Dec.mk 9 (-1)).toRat = 9 / 10 ∧
    parseEncodings ["gzip;q=invalid"] = [("gzip", Dec.mk 0 0)] ∧
    (Dec.mk 0 0).toRat = 0 ∧
    parseEncodings [] = [] ∧
    parseEncodings ["GZIP"] = [("gzip", Dec.mk 1 0)] ∧
    (Dec.mk 1 0).toRat = 1 ∧
    parseEncodings ["  gzip  ;  q=0.5  "] = [("gzip", Dec.mk 5 (-1))] ∧
    (Dec.mk 5 (-1)).toRat = 5 / 10 := by
  refine ⟨by decide, ?_, ?_, by decide, ?_, rfl, by decide, ?_, by decide, ?_⟩
  · rw [Dec.toRat]; norm_num [zpow_neg]
  · rw [Dec.toRat]; norm_num [zpow_neg]
  · simp [Dec.toRat]
  · simp [Dec.toRat]
  · rw [Dec.toRat]; norm_num [zpow_neg]

/-- **C7**: the cache-policy decorator at commit time: a present Cache-Control
value wins; otherwise the parameter-stripped Content-Type is looked up
exactly, then as "{main}/*", setting `max-age=<whole seconds>` on a hit and
leaving Cache-Control unset otherwise; under the default table
application/json gives max-age=3600 and image/webp falls back to image/*
giving max-age=31536000. -/
theorem C7_cachecontrol (conf : List (String × Int)) (s : CacheSt) (code : Nat) :
    (¬ hGet s.t.headers "Cache-Control" = "" →
      (cWriteHeader conf s code).t = s.t.writeHeader code) ∧
    (hGet s.t.headers "Cache-Control" = "" → s.t.committed = false →
      ∀ d, lookupTime conf (goCut (hGet s.t.headers "Content-Type") ';').1 = some d →
      hGet (cWriteHeader conf s code).t.sentHeaders "Cache-Control" = maxAgeValue d ∧
      (cWriteHeader conf s code).t.status = code ∧
      (cWriteHeader conf s code).t.committed = true) ∧
    (hGet s.t.headers "Cache-Control" = "" → s.t.committed = false →
      lookupTime conf (goCut (hGet s.t.headers "Content-Type") ';').1 = none →
      ∀ d, lookupTime conf
          ((goCut (goCut (hGet s.t.headers "Content-Type") ';').1 '/').1 ++ "/*") = some d →
      hGet (cWriteHeader conf s code).t.sentHeaders "Cache-Control" = maxAgeValue d ∧
      (cWriteHeader conf s code).t.status = code ∧
      (cWriteHeader conf s code).t.committed = true) ∧
    (hGet s.t.headers "Cache-Control" = "" →
      lookupTime conf (goCut (hGet s.t.headers "Content-Type") ';').1 = none →
      lookupTime conf
          ((goCut (goCut (hGet s.t.headers "Content-Type") ';').1 '/').1 ++ "/*") = none →
      (cWriteHeader conf s code).t = s.t.writeHeader code) ∧
    (maxAgeValue hourNs = "max-age=3600" ∧ maxAgeValue yearNs = "max-age=31536000") ∧
    (hGet (cWriteHeader defaultCacheTimes
        (CacheSt.mk (Transport.mk false 0 [] [("Content-Type", ["application/json"])] []) false)
        200).t.sentHeaders "Cache-Control" = "max-age=3600" ∧
      hGet (cWriteHeader defaultCacheTimes
        (CacheSt.mk (Transport.mk false 0 [] [("Content-Type", ["image/webp"])] []) false)
        200).t.sentHeaders "Cache-Control" = "max-age=31536000") := by
  refine ⟨?_, ?_, ?_, ?_, ⟨by decide, by decide⟩, by decide, by decide⟩
  · intro hcc
    simp [cWriteHeader, hcc]
  · intro hcc hcom d hd
    have heq : (cWriteHeader conf s code).t = Transport.writeHeader
        { s.t with headers := hSet s.t.headers "Cache-Control" (maxAgeValue d) } code := by
      simp [cWriteHeader, hcc, hd]
    rw [heq, writeHeader_of_uncommitted _ _ (by simpa using hcom)]
    refine ⟨?_, rfl, rfl⟩
    simpa using hGet_hSet_self s.t.headers "Cache-Control" (maxAgeValue d)
  · intro hcc hcom hd1 d hd2
    have heq : (cWriteHeader conf s code).t = Transport.writeHeader
        { s.t with headers := hSet s.t.headers "Cache-Control" (maxAgeValue d) } code := by
      simp [cWriteHeader, hcc, hd1, hd2]
    rw [heq, writeHeader_of_uncommitted _ _ (by simpa using hcom)]
    refine ⟨?_, rfl, rfl⟩
    simpa using hGet_hSet_self s.t.headers "Cache-Control" (maxAgeValue d)
  · intro hcc hd1 hd2
    simp [cWriteHeader, hcc, hd1, hd2]

/-- Witness for C7 under the default table at concrete states. -/
theorem C7_cachecontrol_witness :
    (cWriteHeader defaultCacheTimes
        (CacheSt.mk (Transport.mk false 0 [] [("Cache-Control", ["no-store"])] []) false)
        200).t =
      (Transport.mk false 0 [] [("Cache-Control", ["no-store"])] []).writeHeader 200 ∧
    hGet (cWriteHeader defaultCacheTimes
        (CacheSt.mk (Transport.mk false 0 [] [("Content-Type", ["application/json"])] []) false)
        200).t.sentHeaders "Cache-Control" = maxAgeValue hourNs ∧
    hGet (cWriteHeader defaultCacheTimes
        (CacheSt.mk (Transport.mk false 0 [] [("Content-Type", ["image/webp"])] []) false)
        200).t.sentHeaders "Cache-Control" = maxAgeValue yearNs ∧
    (cWriteHeader defaultCacheTimes
        (CacheSt.mk (Transport.mk false 0 [] [("Content-Type", ["example/unknown"])] []) false)
        200).t =
      (Transport.mk false 0 [] [("Content-Type", ["example/unknown"])] []).writeHeader 200 :=
  ⟨(C7_cachecontrol defaultCacheTimes
      (CacheSt.mk (Transport.mk false 0 [] [("Cache-Control", ["no-store"])] []) false)
      200).1 (by decide),
   ((C7_cachecontrol defaultCacheTimes
      (CacheSt.mk (Transport.mk false 0 [] [("Content-Type", ["application/json"])] []) false)
      200).2.1 (by decide) rfl hourNs (by decide)).1,
   ((C7_cachecontrol defaultCacheTimes
      (CacheSt.mk (Transport.mk false 0 [] [("Content-Type", ["image/webp"])] []) false)
      200).2.2.1 (by decide) rfl (by decide) yearNs (by decide)).1,
   (C7_cachecontrol defaultCacheTimes
      (CacheSt.mk (Transport.mk false 0 [] [("Content-Type", ["example/unknown"])] []) false)
      200).2.2.2.1 (by decide) (by decide) (by decide)⟩

/-- **C8** (counterexample): with an unparseable middle hop, the resolver
returns the previous good hop ("10.0.0.1"), which is not the raw transport
peer address ("192.168.1.1") — refuting "returns the raw peer address when
any hop fails to parse". -/
theorem C8_counterexample :
    selectRealAddress ["203.0.113.7", "nonsense", "10.0.0.1", "192.168.1.1"]
      defaultTrustedProxies = some "10.0.0.1" ∧
    ¬ ((some "10.0.0.1" : Option String) = some "192.168.1.1") := by
  refine ⟨by decide, by decide⟩

/-- **C8** (amended): resolution walks the hop chain from closest-to-server
to closest-to-client; it returns the closest-to-client hop when every hop
parses and is trusted, the first hop outside the trusted suffix when that hop
parses, and the previously-examined good hop (not in general the raw peer
address) when that hop fails to parse; the specified example resolves to
198.51.100.1 under the default private ranges. -/
theorem C8_real_address (tp : List Cidr) :
    (∀ hops : List String, hops ≠ [] → (∀ h ∈ hops, goodHop tp h = true) →
      selectRealAddress hops tp = hops.head?) ∧
    (∀ (pre suf : List String) (h : String) (ip : IP),
      (∀ x ∈ suf, goodHop tp x = true) → parseAddress h = some ip →
      trustedIn tp ip = false →
      selectRealAddress (pre ++ h :: suf) tp = some h) ∧
    (∀ (pre suf : List String) (h g : String),
      (∀ x ∈ g :: suf, goodHop tp x = true) → parseAddress h = none →
      selectRealAddress (pre ++ h :: g :: suf) tp = some g) ∧
    selectRealAddress (collateForwardedHops
      (Req.mk "GET" [("X-Forwarded-For", ["203.0.113.1,198.51.100.1,192.168.1.100"])]
        "192.168.1.1")) defaultTrustedProxies = some "198.51.100.1" := by
  refine ⟨?_, ?_, ?_, by decide⟩
  · intro hops hne hall
    obtain ⟨h, rest, rfl⟩ : ∃ h rest, hops = h :: rest := by
      cases hops with
      | nil => exact absurd rfl hne
      | cons h rest => exact ⟨h, rest, rfl⟩
    unfold selectRealAddress
    rw [List.reverse_cons, ← List.append_nil (rest.reverse ++ [h]),
      selectAux_append_trusted tp _ _ _ ?side]
    case side =>
      intro x hx
      apply hall
      rcases List.mem_append.1 hx with hx | hx
      · exact List.mem_cons_of_mem h (List.mem_reverse.1 hx)
      · rw [List.mem_singleton.1 hx]; exact List.mem_cons_self h rest
    rw [lastOr_concat]
    rfl
  · intro pre suf h ip hsuf hparse htr
    unfold selectRealAddress
    have hrev : (pre ++ h :: suf).reverse = suf.reverse ++ (h :: pre.reverse) := by
      rw [List.reverse_append, List.reverse_cons]
      simp [List.append_assoc]
    rw [hrev, selectAux_append_trusted tp _ _ _
      (fun x hx => hsuf x (List.mem_reverse.1 hx))]
    simp [selectAux, hparse, htr]
  · intro pre suf h g hsuf hparse
    unfold selectRealAddress
    have hrev : (pre ++ h :: g :: suf).reverse =
        (suf.reverse ++ [g]) ++ (h :: pre.reverse) := by
      rw [List.reverse_append, List.reverse_cons, List.reverse_cons]
      simp [List.append_assoc]
    rw [hrev, selectAux_append_trusted tp _ _ _ ?good]
    case good =>
      intro x hx
      rcases List.mem_append.1 hx with hx | hx
      · exact hsuf x (List.mem_cons_of_mem g (List.mem_reverse.1 hx))
      · rw [List.mem_singleton.1 hx]; exact hsuf g (List.mem_cons_self g suf)
    rw [lastOr_concat]
    simp [selectAux, hparse]

/-- Witness for C8 (amended) at concrete hop chains under the default trusted
ranges. -/
theorem C8_real_address_witness :
    selectRealAddress ["192.168.0.9", "10.1.2.3"] defaultTrustedProxies =
      (["192.168.0.9", "10.1.2.3"] : List String).head? ∧
    selectRealAddress (["1.2.3.4"] ++ "203.0.113.9" :: ["192.168.1.5"])
      defaultTrustedProxies = some "203.0.113.9" ∧
    selectRealAddress (["1.2.3.4"] ++ "garbage" :: "10.0.0.1" :: ["192.168.1.5"])
      defaultTrustedProxies = some "10.0.0.1" :=
  ⟨(C8_real_address defaultTrustedProxies).1 ["192.168.0.9", "10.1.2.3"]
      (by decide) (by decide),
   (C8_real_address defaultTrustedProxies).2.1 ["1.2.3.4"] ["192.168.1.5"]
      "203.0.113.9" (IP.v4 (((203 * 256 + 0) * 256 + 113) * 256 + 9))
      (by decide) (by decide) (by decide),
   (C8_real_address defaultTrustedProxies).2.2.1 ["1.2.3.4"] ["192.168.1.5"]
      "garbage" "10.0.0.1" (by decide) (by decide)⟩

/-- **C9** (counterexample): a panic after the handler has already committed
and written a body still appends the fixed plain-text error body to the
committed response — the committed response is altered, not only logged. -/
theorem C9_counterexample :
    (runRecover [HOp.write [104, 105]] true initTransport).1.status = 200 ∧
    (runRecover [HOp.write [104, 105]] true initTransport).1.body =
      [104, 105] ++ internalServerErrorBody ∧
    ¬ ((runRecover [HOp.write [104, 105]] true initTransport).1.body = [104, 105]) := by
  refine ⟨by decide, by decide, by decide⟩

/-- **C9** (amended): the guard middleware reports every panic through the
logging callback; when no response is committed yet it commits status 500
with the fixed plain-text body; when a response was already committed the
emitted status and header snapshot are unchanged but the fixed plain-text
body is still appended to the committed body. -/
theorem C9_recover_amended (ops : List HOp) (t : Transport) :
    ((runRecover ops true t).2 = true) ∧
    (runRecover ops false t = (tRun t ops, false)) ∧
    ((tRun t ops).committed = false →
      (runRecover ops true t).1.status = 500 ∧
      (runRecover ops true t).1.committed = true ∧
      (runRecover ops true t).1.body = (tRun t ops).body ++ internalServerErrorBody) ∧
    ((tRun t ops).committed = true →
      (runRecover ops true t).1.status = (tRun t ops).status ∧
      (runRecover ops true t).1.sentHeaders = (tRun t ops).sentHeaders ∧
      (runRecover ops true t).1.body = (tRun t ops).body ++ internalServerErrorBody) := by
  refine ⟨rfl, rfl, ?_, ?_⟩
  · intro hcom
    simp [runRecover, httpError500, Transport.write, Transport.writeHeader, hcom]
  · intro hcom
    simp [runRecover, httpError500, Transport.write, Transport.writeHeader, hcom]

/-- Witness for C9 (amended): a panic before any commit, and one after a
committed write. -/
theorem C9_recover_amended_witness :
    (runRecover ([] : List HOp) true initTransport).1.status = 500 ∧
    (runRecover [HOp.write [1]] true initTransport).1.status =
      (tRun initTransport [HOp.write [1]]).status ∧
    (runRecover [HOp.write [1]] true initTransport).1.body =
      (tRun initTransport [HOp.write [1]]).body ++ internalServerErrorBody :=
  ⟨((C9_recover_amended ([] : List HOp) initTransport).2.2.1 (by decide)).1,
   ((C9_recover_amended [HOp.write [1]] initTransport).2.2.2 (by decide)).1,
   ((C9_recover_amended [HOp.write [1]] initTransport).2.2.2 (by decide)).2.2⟩

/-- **C10**: CrossOriginProtection forwards the request unchanged (invoking
the inner handler) when the method is GET, HEAD or OPTIONS, or when
Sec-Fetch-Site is absent/empty, "same-origin" or "none"; otherwise it
responds 403 with no body and never invokes the inner handler. -/
theorem C10_cross_origin (r : Req) (ops : List HOp) (t : Transport) :
    ((r.method = "GET" ∨ r.method = "HEAD" ∨ r.method = "OPTIONS") →
      runCrossOriginProtection r ops t = (tRun t ops, true)) ∧
    ((hGet r.headers "Sec-Fetch-Site" = "" ∨
        hGet r.headers "Sec-Fetch-Site" = "same-origin" ∨
        hGet r.headers "Sec-Fetch-Site" = "none") →
      runCrossOriginProtection r ops t = (tRun t ops, true)) ∧
    (¬ r.method = "GET" → ¬ r.method = "HEAD" → ¬ r.method = "OPTIONS" →
      ¬ hGet r.headers "Sec-Fetch-Site" = "" →
      ¬ hGet r.headers "Sec-Fetch-Site" = "same-origin" →
      ¬ hGet r.headers "Sec-Fetch-Site" = "none" →
      t.committed = false → t.body = ([] : List Nat) →
      runCrossOriginProtection r ops t = (t.writeHeader 403, false) ∧
      (t.writeHeader 403).status = 403 ∧
      (t.writeHeader 403).body = ([] : List Nat) ∧
      (t.writeHeader 403).committed = true) := by
  refine ⟨?_, ?_, ?_⟩
  · intro hm
    rcases hm with h | h | h <;> simp [runCrossOriginProtection, h]
  · intro hs
    by_cases hm : (r.method = "GET" || r.method = "HEAD" || r.method = "OPTIONS") = true
    · rcases Bool.or_eq_true_iff.1 hm with hm' | hm'
      · rcases Bool.or_eq_true_iff.1 hm' with hm'' | hm''
        · simp [runCrossOriginProtection, of_decide_eq_true hm'']
        · simp [runCrossOriginProtection, of_decide_eq_true hm'']
      · simp [runCrossOriginProtection, of_decide_eq_true hm']
    · rcases hs with h | h | h <;> simp [runCrossOriginProtection, h]
  · intro h1 h2 h3 h4 h5 h6 hcom hbody
    have hrun : runCrossOriginProtection r ops t = (t.writeHeader 403, false) := by
      simp [runCrossOriginProtection, h1, h2, h3, h4, h5, h6]
    refine ⟨hrun, ?_, ?_, ?_⟩
    · rw [writeHeader_of_uncommitted t 403 hcom]
    · rw [writeHeader_body, hbody]
    · rw [writeHeader_of_uncommitted t 403 hcom]

/-- Witness for C10: an allowed GET, an allowed same-origin POST, and a
denied cross-site POST. -/
theorem C10_cross_origin_witness :
    runCrossOriginProtection (Req.mk "GET" [] "") [HOp.write [1]] initTransport =
      (tRun initTransport [HOp.write [1]], true) ∧
    runCrossOriginProtection (Req.mk "POST" [("Sec-Fetch-Site", ["same-origin"])] "")
        [HOp.write [1]] initTransport =
      (tRun initTransport [HOp.write [1]], true) ∧
    runCrossOriginProtection (Req.mk "POST" [("Sec-Fetch-Site", ["cross-site"])] "")
        [HOp.write [1]] initTransport =
      (initTransport.writeHeader 403, false) :=
  ⟨(C10_cross_origin (Req.mk "GET" [] "") [HOp.write [1]] initTransport).1
      (Or.inl rfl),
   (C10_cross_origin (Req.mk "POST" [("Sec-Fetch-Site", ["same-origin"])] "")
      [HOp.write [1]] initTransport).2.1 (Or.inr (Or.inl (by decide))),
   ((C10_cross_origin (Req.mk "POST" [("Sec-Fetch-Site", ["cross-site"])] "")
      [HOp.write [1]] initTransport).2.2 (by decide) (by decide) (by decide)
      (by decide) (by decide) (by decide) rfl rfl).1⟩

end Middleware
